import Mathlib

/-!
# WhispurrNet — verification of the protocol / orchestrator core

Shallow embedding of the WhispurrNet TypeScript sources
(`whispurrnet/Protocol.ts`, `whispurrnet/Node.ts` (incl. `utils/entropy.ts`),
the `Whispurr` orchestrator, `src/peer/PeerManager.ts`) together with proofs
about them.

Modelling conventions:
* JavaScript strings are `String` (node ids, which we reason about
  character-by-character, are `List Char`).
* JavaScript numbers that the code compares against `0` are `Int`;
  wall-clock values that are always non-negative are `Nat` where convenient;
  resonance strengths are `ℚ`.
* `Uint8Array` is a wrapper around `List (Fin 256)`.
* A possibly-absent (`undefined`) object field is an `Option`; JS truthiness
  on a string means "`some` and non-empty", on a number "non-zero".
* `JSON.stringify`/`JSON.parse` on a record of plain JSON values is modelled
  as the identity on a wire-level record type; the one non-plain field,
  `resonanceKey : Uint8Array`, is explicitly converted by
  `serializeMessage`/`deserializeMessage` exactly as the source does
  (`Array.from` on the way out, `new Uint8Array` on the way back).
* Effects (`Date.now()`, `crypto.randomUUID()`, SHA-256 based key/tag
  derivation) are passed in as explicit arguments, so every function is pure.
-/

namespace WhispurrNet

/-! ## Protocol.ts : message types -/

/-- `enum MessageType` from `Protocol.ts`. -/
inductive MessageType where
  | whisper
  | broadcast
  | resonance
  | ping
  | pong
  | fileSync
  | miningSignal
  | dreamspace
  | hello
  | goodbye
  | error
deriving DecidableEq, Repr

/-- The string value of each enum member. -/
def messageTypeStr : MessageType → String
  | .whisper => "whisper"
  | .broadcast => "broadcast"
  | .resonance => "resonance"
  | .ping => "ping"
  | .pong => "pong"
  | .fileSync => "file_sync"
  | .miningSignal => "mining_signal"
  | .dreamspace => "dreamspace"
  | .hello => "hello"
  | .goodbye => "goodbye"
  | .error => "error"

/-- `Object.values(MessageType)`. -/
def allMessageTypes : List MessageType :=
  [.whisper, .broadcast, .resonance, .ping, .pong,
   .fileSync, .miningSignal, .dreamspace, .hello, .goodbye, .error]

/-- A JS `Uint8Array`: a sequence of bytes. -/
structure Uint8Array where
  data : List (Fin 256)
deriving DecidableEq, Repr

/-- `PROTOCOL_VERSION` from `Protocol.ts`. -/
def PROTOCOL_VERSION : String := "1.0.0"

/-- A protocol message: the union of `BaseMessage` and all kind-specific
interfaces of `Protocol.ts`.  Kind-specific fields are `Option`s because on a
JS object they may be absent.  `metadata`/`signalData`/`burstData` are
`Record<string, any>`; the claims never inspect them, we carry them as
string-valued records. -/
structure Message where
  type : MessageType
  senderId : String
  resonanceKey : Uint8Array
  whisperTag : String
  payload : String
  timestamp : Int
  version : String
  ttl : Int
  nonce : String
  targetId : Option String := none
  maxHops : Option Int := none
  currentHops : Option Int := none
  seenBy : Option (List String) := none
  intent : Option String := none
  strength : Option ℚ := none
  fileId : Option String := none
  chunkIndex : Option Int := none
  totalChunks : Option Int := none
  metadata : Option (List (String × String)) := none
  signalType : Option String := none
  signalData : Option (List (String × String)) := none
  burstId : Option String := none
  burstData : Option (List (String × String)) := none
deriving DecidableEq, Repr

/-- `ValidationResult` from `Protocol.ts`. -/
structure ValidationResult where
  isValid : Bool
  errors : List String
  warnings : List String
deriving DecidableEq, Repr

/-- JS truthiness of a possibly-absent string field. -/
def truthyOptStr : Option String → Bool
  | some s => if s = "" then false else true
  | none => false

/-- The error list accumulated by `validateMessage` (`Protocol.ts` lines
185–252).  `now` is `Date.now()`.  Each required-field check `!message.f` is
falseness of the field: the empty string for string fields, `0` for the
numeric `timestamp`/`ttl`, absence for optional fields.
`message.resonanceKey` is an object and objects are always truthy, so that
check can never fire on a typed message and contributes no error. -/
def validateErrors (now : Int) (m : Message) : List String :=
    (if messageTypeStr m.type = "" then ["Missing message type"] else []) ++
    (if m.senderId = "" then ["Missing sender ID"] else []) ++
    (if m.whisperTag = "" then ["Missing whisper tag"] else []) ++
    (if m.payload = "" then ["Missing payload"] else []) ++
    (if m.timestamp = 0 then ["Missing timestamp"] else []) ++
    (if m.version = "" then ["Missing version"] else []) ++
    (if m.ttl = 0 then ["Missing TTL"] else []) ++
    (if m.nonce = "" then ["Missing nonce"] else []) ++
    (if messageTypeStr m.type ≠ "" ∧ m.type ∉ allMessageTypes
      then ["Invalid message type: " ++ messageTypeStr m.type] else []) ++
    (if m.ttl ≠ 0 ∧ m.ttl < 0 then ["TTL must be a positive number"] else []) ++
    (if m.timestamp ≠ 0 ∧ m.ttl ≠ 0 ∧ now - m.timestamp > m.ttl
      then ["Message has expired"] else []) ++
    (if m.type = .whisper ∧ truthyOptStr m.targetId = false
      then ["Whisper message missing target ID"] else []) ++
    (if m.type = .broadcast then
      (match m.maxHops with
        | some k => if k < 0 then ["Broadcast message must have valid maxHops"] else []
        | none => ["Broadcast message must have valid maxHops"]) ++
      (match m.currentHops with
        | some k => if k < 0 then ["Broadcast message must have valid currentHops"] else []
        | none => ["Broadcast message must have valid currentHops"]) ++
      (match m.seenBy with
        | some _ => []
        | none => ["Broadcast message must have seenBy array"])
      else []) ++
    (if m.type = .resonance then
      (if truthyOptStr m.intent = false then ["Resonance message missing intent"] else []) ++
      (match m.strength with
        | some s => if s < 0 ∨ s > 1 then ["Resonance strength must be between 0 and 1"] else []
        | none => ["Resonance strength must be between 0 and 1"])
      else [])

/-- The warning list accumulated by `validateMessage` (a protocol-version
mismatch is a warning, not an error). -/
def validateWarnings (m : Message) : List String :=
  if m.version ≠ "" ∧ m.version ≠ PROTOCOL_VERSION
    then ["Protocol version mismatch: " ++ m.version ++ " vs " ++ PROTOCOL_VERSION]
    else []

/-- `validateMessage` from `Protocol.ts` lines 185–259: a message is valid
iff the error list is empty. -/
def validateMessage (now : Int) (m : Message) : ValidationResult :=
  { isValid := (validateErrors now m).isEmpty
    errors := validateErrors now m
    warnings := validateWarnings m }

/-- The `options` argument of `createMessage`. -/
structure CreateOptions where
  intent : Option String := none
  whisperTag : Option String := none
  ttl : Option Int := none
  targetId : Option String := none
  maxHops : Option Int := none
  fileId : Option String := none
  chunkIndex : Option Int := none
  totalChunks : Option Int := none
  metadata : Option (List (String × String)) := none
  signalType : Option String := none
  signalData : Option (List (String × String)) := none
  burstId : Option String := none
  burstData : Option (List (String × String)) := none
deriving Repr

/-- JS `a || d` for a possibly-absent string (absent and `""` are falsy). -/
def jsOrStr : Option String → String → String
  | some s, d => if s = "" then d else s
  | none, d => d

/-- JS `a || d` for a possibly-absent number (absent and `0` are falsy). -/
def jsOrInt : Option Int → Int → Int
  | some n, d => if n = 0 then d else n
  | none, d => d

/-- `createMessage` from `Protocol.ts` lines 270–355.  The effectful inputs
are passed explicitly: `H` is `deriveResonanceKey` (SHA-256 of the intent),
`G` is `generateWhisperTag`, `now` is `Date.now()` and `nonce` is
`crypto.randomUUID()`. -/
def createMessage (H : String → List (Fin 256)) (G : String → String)
    (now : Int) (nonce : String)
    (type : MessageType) (senderId : String) (payload : String)
    (options : CreateOptions) : Message :=
  let intent := jsOrStr options.intent "default"
  let resonanceKey : Uint8Array := ⟨H intent⟩
  let whisperTag := jsOrStr options.whisperTag (G intent)
  let baseMessage : Message :=
    { type := type
      senderId := senderId
      resonanceKey := resonanceKey
      whisperTag := whisperTag
      payload := payload
      timestamp := now
      version := PROTOCOL_VERSION
      ttl := jsOrInt options.ttl 300000
      nonce := nonce }
  match type with
  | .whisper => { baseMessage with targetId := options.targetId }
  | .broadcast =>
      { baseMessage with
        maxHops := some (jsOrInt options.maxHops 10)
        currentHops := some 0
        seenBy := some [senderId] }
  | .resonance => { baseMessage with intent := some intent, strength := some 1 }
  | .fileSync =>
      { baseMessage with
        fileId := options.fileId
        chunkIndex := some (jsOrInt options.chunkIndex 0)
        totalChunks := some (jsOrInt options.totalChunks 1)
        metadata := some (options.metadata.getD []) }
  | .miningSignal =>
      { baseMessage with
        signalType := options.signalType
        signalData := some (options.signalData.getD []) }
  | .dreamspace =>
      { baseMessage with
        burstId := options.burstId
        burstData := some (options.burstData.getD []) }
  | _ => baseMessage

/-- The wire-level record produced by `serializeMessage`: identical to
`Message` except that `resonanceKey` has been turned into a plain JSON array
of numbers.  `JSON.stringify`/`JSON.parse` are faithful on such a record, so
we identify the JSON text with this record. -/
structure SerializedMessage where
  type : MessageType
  senderId : String
  resonanceKey : List Nat
  whisperTag : String
  payload : String
  timestamp : Int
  version : String
  ttl : Int
  nonce : String
  targetId : Option String := none
  maxHops : Option Int := none
  currentHops : Option Int := none
  seenBy : Option (List String) := none
  intent : Option String := none
  strength : Option ℚ := none
  fileId : Option String := none
  chunkIndex : Option Int := none
  totalChunks : Option Int := none
  metadata : Option (List (String × String)) := none
  signalType : Option String := none
  signalData : Option (List (String × String)) := none
  burstId : Option String := none
  burstData : Option (List (String × String)) := none
deriving DecidableEq, Repr

/-- `serializeMessage` from `Protocol.ts` lines 364–371:
`{...message, resonanceKey: Array.from(message.resonanceKey)}`. -/
def serializeMessage (m : Message) : SerializedMessage :=
  { type := m.type, senderId := m.senderId
    resonanceKey := m.resonanceKey.data.map Fin.val
    whisperTag := m.whisperTag, payload := m.payload, timestamp := m.timestamp
    version := m.version, ttl := m.ttl, nonce := m.nonce
    targetId := m.targetId, maxHops := m.maxHops, currentHops := m.currentHops
    seenBy := m.seenBy, intent := m.intent, strength := m.strength
    fileId := m.fileId, chunkIndex := m.chunkIndex, totalChunks := m.totalChunks
    metadata := m.metadata, signalType := m.signalType, signalData := m.signalData
    burstId := m.burstId, burstData := m.burstData }

/-- `deserializeMessage` from `Protocol.ts` lines 380–389: parse, then
`new Uint8Array(parsed.resonanceKey)` (each element is taken mod 2^8, as a
`Uint8Array` stores unsigned 8-bit integers). -/
def deserializeMessage (w : SerializedMessage) : Message :=
  { type := w.type, senderId := w.senderId
    resonanceKey := ⟨w.resonanceKey.map (fun n => (⟨n % 256, Nat.mod_lt n (by decide)⟩ : Fin 256))⟩
    whisperTag := w.whisperTag, payload := w.payload, timestamp := w.timestamp
    version := w.version, ttl := w.ttl, nonce := w.nonce
    targetId := w.targetId, maxHops := w.maxHops, currentHops := w.currentHops
    seenBy := w.seenBy, intent := w.intent, strength := w.strength
    fileId := w.fileId, chunkIndex := w.chunkIndex, totalChunks := w.totalChunks
    metadata := w.metadata, signalType := w.signalType, signalData := w.signalData
    burstId := w.burstId, burstData := w.burstData }

/-- `isMessageExpired` from `Protocol.ts` lines 424–427. -/
def isMessageExpired (now : Int) (m : Message) : Bool :=
  now - m.timestamp > m.ttl

/-- `matchesResonance` from `Protocol.ts` lines 400–416.  On a record
without a numeric `strength` the JS comparison `undefined < minStrength` is
false, so the guard does not fire and the function returns true. -/
def matchesResonance (m : Message) (targetIntent : String) (minStrength : ℚ) : Bool :=
  if m.type ≠ .resonance then false
  else if m.intent ≠ some targetIntent then false
  else
    match m.strength with
    | some s => if s < minStrength then false else true
    | none => true

/-! ## utils/entropy.ts : ephemeral node ids

Node ids are manipulated character by character (`split`, regular
expressions, `parseInt`), so we embed them as `List Char`. -/

/-- The character for a hex digit `n < 16`, lowercase — as produced by JS
`Number.prototype.toString(16)`. -/
def hexDigit (n : Nat) : Char :=
  if n < 10 then Char.ofNat (48 + n) else Char.ofNat (97 + (n - 10))

/-- Does `c` match the character class `[0-9a-f]`? -/
def isHexLower (c : Char) : Bool :=
  (('0' ≤ c ∧ c ≤ '9') ∨ ('a' ≤ c ∧ c ≤ 'f') : Prop)

/-- Numeric value of a hex digit as read by JS `parseInt(·, 16)` (which
accepts both cases; ids only ever contain lowercase). -/
def hexVal (c : Char) : Nat :=
  if '0' ≤ c ∧ c ≤ '9' then c.toNat - 48
  else if 'a' ≤ c ∧ c ≤ 'f' then c.toNat - 87
  else if 'A' ≤ c ∧ c ≤ 'F' then c.toNat - 55
  else 0

/-- Hex digits of a positive number, most significant first, accumulated
into `acc`. -/
def natToHexAux : Nat → List Char → List Char
  | 0, acc => acc
  | n + 1, acc => natToHexAux ((n + 1) / 16) (hexDigit ((n + 1) % 16) :: acc)
decreasing_by exact Nat.div_lt_self (Nat.succ_pos n) (by omega)

/-- JS `n.toString(16)` for a non-negative integer `n`: lowercase hex,
no fixed width, `"0"` for zero. -/
def natToHex (n : Nat) : List Char :=
  if n = 0 then ['0'] else natToHexAux n []

/-- One byte as two hex chars: `b.toString(16).padStart(2, '0')`. -/
def byteToHex (b : Fin 256) : List Char :=
  [hexDigit (b.val / 16), hexDigit (b.val % 16)]

/-- JS `parseInt(s, 16)` on an all-hex string. -/
def hexToNat (l : List Char) : Nat :=
  l.foldl (fun a c => a * 16 + hexVal c) 0

/-- `generateEphemeralNodeId` from `entropy.ts` lines 851–862 (of the
concatenated `Node.ts`), with its two effects passed in: `entropy` is the
result of `generateSecureBytes(16)` and `t` the result of `Date.now()`.
Returns `<entropy_hex>:<timestamp_hex>`. -/
def generateEphemeralNodeId (entropy : List (Fin 256)) (t : Nat) : List Char :=
  (entropy.flatMap byteToHex) ++ ':' :: natToHex t

/-- JS `String.prototype.split(':')` (single-character separator). -/
def splitColon : List Char → List (List Char)
  | [] => [[]]
  | c :: rest =>
    if c = ':' then [] :: splitColon rest
    else
      match splitColon rest with
      | [] => [[c]]
      | h :: t => (c :: h) :: t

/-- `validateNodeId` from `entropy.ts` lines 947–960: split on `:`, require
exactly two parts, the first matching `^[0-9a-f]{32}$` and the second
matching `^[0-9a-f]+$`. -/
def validateNodeId (nodeId : List Char) : Bool :=
  match splitColon nodeId with
  | [entropy, timestamp] =>
    if ¬ (entropy.length = 32 ∧ entropy.all isHexLower) then false
    else if ¬ (timestamp ≠ [] ∧ timestamp.all isHexLower) then false
    else true
  | _ => false

/-- `extractTimestamp` from `entropy.ts` lines 969–976.  The source throws
on an invalid id; we return `none` there. -/
def extractTimestamp (nodeId : List Char) : Option Nat :=
  if ¬ validateNodeId nodeId then none
  else
    match splitColon nodeId with
    | [_, timestamp] => some (hexToNat timestamp)
    | _ => none

/-! ## JS `Map` as an insertion-ordered association list

`Map.set` on an existing key updates in place, on a fresh key appends;
`Map.delete` removes; iteration follows insertion order. -/

/-- `Map.get`. -/
def mapGet {α : Type} (k : String) (m : List (String × α)) : Option α :=
  (m.find? (fun p => p.1 = k)).map (·.2)

/-- `Map.set`. -/
def mapSet {α : Type} (k : String) (v : α) (m : List (String × α)) : List (String × α) :=
  if m.any (fun p => p.1 = k) then
    m.map (fun p => if p.1 = k then (k, v) else p)
  else
    m ++ [(k, v)]

/-- `Map.delete`. -/
def mapDelete {α : Type} (k : String) (m : List (String × α)) : List (String × α) :=
  m.filter (fun p => ¬ p.1 = k)

/-! ## Node.ts : connection manager state -/

/-- `enum ConnectionState` from `Node.ts`. -/
inductive ConnectionState where
  | disconnected
  | connecting
  | connected
  | relaying
  | error
deriving DecidableEq, Repr

/-- `enum ConnectionType` from `Node.ts`. -/
inductive ConnectionType where
  | direct
  | relay
deriving DecidableEq, Repr

/-- `interface PeerInfo` from `Node.ts`. -/
structure PeerInfo where
  nodeId : String
  state : ConnectionState
  type : ConnectionType
  publicKey : Uint8Array
  lastSeen : Int
  latency : ℚ
  bandwidth : ℚ
  reliability : ℚ
  supportedTypes : List MessageType
deriving DecidableEq, Repr

/-- The events of `ConnectionEvent` from `Node.ts` (the `error` arm carries
an error message string). -/
inductive ConnectionEvent where
  | connected (peer : PeerInfo)
  | disconnected (peerId : String) (reason : String)
  | message (message : Message) (peer : PeerInfo)
  | error (message : String) (peerId : Option String)
deriving DecidableEq, Repr

/-- The mutable state of a `WhispurrNode` that `handleDisconnection`
touches: the peer table, the connection map (we track only its key set —
the values are live transport handles) and the heartbeat-timer map
(likewise its key set). -/
structure NodeState where
  peers : List (String × PeerInfo)
  connections : List String
  heartbeatTimers : List String
deriving DecidableEq, Repr

/-- `getConnectedPeers` from `Node.ts` lines 748–752. -/
def getConnectedPeers (st : NodeState) : List PeerInfo :=
  (st.peers.map (·.2)).filter
    (fun peer => peer.state = ConnectionState.connected ∨ peer.state = ConnectionState.relaying)

/-- `handleDisconnection` from `Node.ts` lines 552–563: if the peer is
known, mark it `DISCONNECTED` and write it back into the peer table; delete
the connection handle; stop the heartbeat; emit a `disconnected` event.
Returns the new state and the emitted events. -/
def handleDisconnection (st : NodeState) (peerId reason : String) :
    NodeState × List ConnectionEvent :=
  let peers :=
    match mapGet peerId st.peers with
    | some peer => mapSet peerId { peer with state := ConnectionState.disconnected } st.peers
    | none => st.peers
  ({ peers := peers
     connections := st.connections.filter (fun k => ¬ k = peerId)
     heartbeatTimers := st.heartbeatTimers.filter (fun k => ¬ k = peerId) },
   [ConnectionEvent.disconnected peerId reason])

/-- The payload mutation `sendMessage` (`Node.ts` lines 436–441) performs
before serializing a message onto the wire:
`message.payload = await this.encryptMessage(message.payload, peer.publicKey)`.
`encrypt` stands for the effectful `encryptMessage`, whose output — the
base64 rendering of IV ‖ ciphertext ‖ tag — is never the empty string (the
IV alone is 12 bytes).  It is this mutated record, not the constructed one,
that `serializeMessage` puts on the wire and that the receivers' validation
gates (`setupDataChannel.onmessage`, `handleRelayMessage`) see. -/
def sendMessagePayload (encrypt : String → String) (m : Message) : Message :=
  { m with payload := encrypt m.payload }

/-! ## Whispurr.ts : gossip / resonance orchestrator

The orchestrator wires itself to the node twice:
* `setupEventHandlers` subscribes to the node's event stream; a `message`
  event is routed through `handleIncomingMessage` (expiry check, dedup on
  `senderId:nonce`, then per-kind handling);
* `setupMessageHandlers` additionally registers per-type handlers on the
  node (`PING` → answer with a pong, `BROADCAST` → `handleGossipMessage`,
  `RESONANCE` → `handleResonanceMessage`, every other type →
  `routeMessageToExtensions`).
`WhispurrNode.handleMessage` fires both: it emits the `message` event to all
event handlers and then invokes every handler registered for the message's
type.  `processDelivery` below models one complete delivery of a message
through both paths, counting extension-handler invocations. -/

/-- The registration-relevant part of a `WhispurrExtension`. -/
structure Extension where
  id : String
  supportedTypes : List MessageType
deriving DecidableEq, Repr

/-- Orchestrator state touched by the incoming pipeline: the dedup history
(`messageId → first-seen ms`, a JS `Map`), the gossip queue, and the
configured `gossip.messageTTL`. -/
structure OrchState where
  messageHistory : List (String × Int)
  gossipQueue : List Message
  messageTTL : Int
deriving Repr

/-- The dedup key `${message.senderId}:${message.nonce}` of
`handleIncomingMessage`. -/
def messageIdOf (m : Message) : String :=
  m.senderId ++ ":" ++ m.nonce

/-- `cleanupMessageHistory` from `Whispurr.ts` lines 523–531: drop entries
older than `now - messageTTL`. -/
def cleanupMessageHistory (now ttl : Int) (hist : List (String × Int)) :
    List (String × Int) :=
  hist.filter (fun p => ¬ p.2 < now - ttl)

/-- `checkResonance` from `Whispurr.ts` lines 409–413: accept any resonance
with `strength > 0.5`; the intent is ignored by the default matcher. -/
def checkResonance (_intent : String) (strength : ℚ) : Bool :=
  strength > 1/2

/-- `routeMessageToExtensions` from `Whispurr.ts` lines 418–428 invokes
`handleMessage` once on every registered extension whose `supportedTypes`
contains the message's type; we count those invocations. -/
def routeMessageToExtensions (exts : List Extension) (m : Message) : Nat :=
  (exts.filter (fun e => m.type ∈ e.supportedTypes)).length

/-- `handleResonanceMessage` from `Whispurr.ts` lines 392–404: dispatch to
extensions iff `checkResonance(intent, strength)`.  On a record without a
numeric `strength`, the JS comparison `undefined > 0.5` is false, so nothing
is dispatched. -/
def handleResonanceMessage (exts : List Extension) (m : Message) : Nat :=
  match m.strength with
  | some s => if checkResonance (m.intent.getD "") s then routeMessageToExtensions exts m else 0
  | none => 0

/-- `handleGossipMessage` from `Whispurr.ts` lines 365–387, acting on the
gossip queue.  The function mutates the (shared) message record, so it
returns the record as well: if `currentHops ≥ maxHops` or the local node is
already in `seenBy`, nothing happens; otherwise the local node id is pushed
onto `seenBy`, `currentHops` is incremented and the record is enqueued.
Records without the three broadcast fields are handled by neither branch
(the JS code would throw on `seenBy.includes`); the pipeline only feeds this
function `BROADCAST` records. -/
def handleGossipMessage (localId : String) (queue : List Message) (m : Message) :
    List Message × Message :=
  match m.currentHops, m.maxHops, m.seenBy with
  | some currentHops, some maxHops, some seenBy =>
    if currentHops ≥ maxHops then (queue, m)
    else if localId ∈ seenBy then (queue, m)
    else
      let m2 := { m with seenBy := some (seenBy ++ [localId]),
                         currentHops := some (currentHops + 1) }
      (queue ++ [m2], m2)
  | _, _, _ => (queue, m)

/-- `handleIncomingMessage` from `Whispurr.ts` lines 327–360 (the event-path
handler): drop if expired; drop if the `senderId:nonce` pair is already in
the history; otherwise record it, sweep old entries, and route by type
(broadcast → gossip handling, resonance → resonance handling, everything
else → extensions).  Returns the new state, the possibly-mutated record, and
the number of extension invocations. -/
def handleIncomingMessage (localId : String) (exts : List Extension) (now : Int)
    (st : OrchState) (m : Message) : OrchState × Message × Nat :=
  if isMessageExpired now m then (st, m, 0)
  else if (mapGet (messageIdOf m) st.messageHistory).isSome then (st, m, 0)
  else
    let hist := cleanupMessageHistory now st.messageTTL
      (mapSet (messageIdOf m) now st.messageHistory)
    match m.type with
    | .broadcast =>
      let (queue, m2) := handleGossipMessage localId st.gossipQueue m
      ({ st with messageHistory := hist, gossipQueue := queue }, m2, 0)
    | .resonance =>
      ({ st with messageHistory := hist }, m, handleResonanceMessage exts m)
    | _ =>
      ({ st with messageHistory := hist }, m, routeMessageToExtensions exts m)

/-- One delivery of a message to the orchestrator, as performed by
`WhispurrNode.handleMessage`: first the `message` event reaches
`handleIncomingMessage` (via `setupEventHandlers`), then the per-type
handlers registered by `setupMessageHandlers` run on the same (shared,
possibly mutated) record.  Returns the new state and the total number of
extension-handler invocations this delivery caused. -/
def processDelivery (localId : String) (exts : List Extension) (now : Int)
    (st : OrchState) (m : Message) : OrchState × Nat :=
  let (st1, m1, d1) := handleIncomingMessage localId exts now st m
  match m1.type with
  | .ping => (st1, d1)
  | .broadcast =>
    let (queue, _) := handleGossipMessage localId st1.gossipQueue m1
    ({ st1 with gossipQueue := queue }, d1)
  | .resonance => (st1, d1 + handleResonanceMessage exts m1)
  | _ => (st1, d1 + routeMessageToExtensions exts m1)

/-- `Whispurr.resonate` from `Whispurr.ts` lines 580–594: builds the
resonance record that is broadcast to all connected peers.  Note that the
source passes only `{ intent, whisperTag }` to `createMessage` — the
`strength` parameter is not forwarded (and `createMessage`'s RESONANCE arm
sets `strength: 1.0`). -/
def resonate (H : String → List (Fin 256)) (G : String → String)
    (nodeId : String) (now : Int) (nonce : String)
    (intent : String) (strength : ℚ) : Message :=
  let _ := strength
  createMessage H G now nonce .resonance nodeId ""
    { intent := some intent, whisperTag := some (G intent) }

/-! ## src/peer/PeerManager.ts : connection cap and eviction -/

/-- `interface PeerInfo` from `PeerAddressing.ts` (the fields `addPeer`
copies). -/
structure PMPeerInfo where
  nodeId : String
  publicKey : Option Uint8Array := none
  addresses : List String := []
  metadata : Option (List (String × String)) := none
deriving DecidableEq, Repr

/-- `interface PeerConnection` from `PeerManager.ts`. -/
structure PeerConnection where
  nodeId : String
  publicKey : Option Uint8Array := none
  addresses : List String := []
  metadata : Option (List (String × String)) := none
  connectionId : String
  connected : Bool
  lastPing : Option Int := none
  latency : Option Int := none
  connectionTime : Option Int := none
  lastSeen : Int
deriving DecidableEq, Repr

/-- The `PeerManager` state relevant to `addPeer`. -/
structure PMState where
  maxPeers : Nat
  peers : List (String × PeerConnection)
deriving Repr

/-- The head of `Array.from(map.values()).sort((a,b) => (a.lastSeen||0) -
(b.lastSeen||0))`: since the sort is stable, this is the first entry (in
insertion order) with minimal `lastSeen`. -/
def firstMinByLastSeen : List (String × PeerConnection) → Option (String × PeerConnection)
  | [] => none
  | p :: rest =>
    match firstMinByLastSeen rest with
    | none => some p
    | some q => if p.2.lastSeen ≤ q.2.lastSeen then some p else some q

/-- `PeerManager.addPeer` from `PeerManager.ts` lines 86–128.  `now` is
`Date.now()`, `connId` the result of `PeerAddressing.generateConnectionId`,
`hasTransport` whether the optional `transport` argument was passed.
Returns the new state and, when a peer was evicted to stay under the cap,
the evicted peer's node id (the source calls `this.disconnect` on it and
then deletes it from the table). -/
def addPeer (st : PMState) (peerInfo : PMPeerInfo) (hasTransport : Bool)
    (now : Int) (connId : String) : PMState × Option String :=
  match mapGet peerInfo.nodeId st.peers with
  | some existingPeer =>
    let updatedPeer : PeerConnection :=
      { existingPeer with
        nodeId := peerInfo.nodeId
        publicKey := peerInfo.publicKey
        addresses := peerInfo.addresses
        metadata := peerInfo.metadata
        lastSeen := now
        connected := if hasTransport then true else existingPeer.connected }
    ({ st with peers := mapSet peerInfo.nodeId updatedPeer st.peers }, none)
  | none =>
    let (peers1, evicted) :=
      if st.peers.length ≥ st.maxPeers then
        match firstMinByLastSeen st.peers with
        | some oldestPeer => (mapDelete oldestPeer.1 st.peers, some oldestPeer.1)
        | none => (st.peers, none)
      else (st.peers, none)
    let newPeer : PeerConnection :=
      { nodeId := peerInfo.nodeId
        publicKey := peerInfo.publicKey
        addresses := peerInfo.addresses
        metadata := peerInfo.metadata
        connectionId := connId
        connected := hasTransport
        connectionTime := some now
        lastSeen := now }
    ({ st with peers := mapSet peerInfo.nodeId newPeer peers1 }, evicted)

/-! ## Proof helper: the numeric value denoted by the hex digits that
`natToHexAux` prepends -/

/-- `prepVal n a` is the value obtained by shifting `a` past the hex digits
of `n` and adding `n`; it mirrors the digit-production order of
`natToHexAux` and is the key to the `parseInt`/`toString(16)` round trip. -/
def prepVal : Nat → Nat → Nat
  | 0, a => a
  | n + 1, a => prepVal ((n + 1) / 16) a * 16 + (n + 1) % 16
decreasing_by exact Nat.div_lt_self (Nat.succ_pos n) (by omega)

/-! ## Concrete instances used in closed statements (counterexamples and
witnesses) -/

/-- A concrete stand-in for the SHA-256 based `deriveResonanceKey` where a
closed statement needs some derivation function. -/
def exHash : String → List (Fin 256) :=
  fun s => [⟨s.length % 256, Nat.mod_lt _ (by decide)⟩]

/-- A concrete stand-in for `generateWhisperTag`. -/
def exTag : String → String := fun s => s ++ "#tag"

/-- A concrete stand-in for `encryptMessage`'s base64 output (which is
never empty: it always carries at least the 12-byte IV and the 16-byte
authentication tag). -/
def exEncrypt : String → String := fun _ => "DEq2rKk9TQyClbol5mhcVOiyU2NhbG9y"

/-- A concrete one-byte resonance key. -/
def exKey : Uint8Array := ⟨[⟨171, by decide⟩]⟩

/-- A fully-populated `PONG` record as the heartbeat machinery produces it:
every field of the data model is present, and the payload — as on every
ping/pong the source constructs — is the empty string. -/
def exPong : Message :=
  { type := .pong, senderId := "sender-1", resonanceKey := exKey,
    whisperTag := "ab12", payload := "", timestamp := 1000,
    version := PROTOCOL_VERSION, ttl := 300000, nonce := "nonce-1" }

/-- A well-formed whisper record with a non-empty payload. -/
def exWhisper : Message :=
  { type := .whisper, senderId := "sender-1", resonanceKey := exKey,
    whisperTag := "ab12", payload := "secret", timestamp := 1000,
    version := PROTOCOL_VERSION, ttl := 300000, nonce := "nonce-2",
    targetId := some "target-1" }

/-- A fresh `FILE_SYNC` record. -/
def exFileSync : Message :=
  { type := .fileSync, senderId := "sender-1", resonanceKey := exKey,
    whisperTag := "ab12", payload := "chunk", timestamp := 100,
    version := PROTOCOL_VERSION, ttl := 300000, nonce := "nonce-3",
    fileId := some "file-1", chunkIndex := some 0, totalChunks := some 1,
    metadata := some [] }

/-- An extension registered for `FILE_SYNC` messages. -/
def exExt : Extension := ⟨"file-ext", [.fileSync]⟩

/-- The orchestrator's initial pipeline state under the default
configuration (`gossip.messageTTL = 300000`). -/
def exOrchState : OrchState := ⟨[], [], 300000⟩

/-- A broadcast record from node `A` with `maxHops = 10`, as
`createMessage` initializes it. -/
def exBroadcast : Message :=
  { type := .broadcast, senderId := "A", resonanceKey := exKey,
    whisperTag := "ab12", payload := "hello", timestamp := 100,
    version := PROTOCOL_VERSION, ttl := 300000, nonce := "nonce-4",
    maxHops := some 10, currentHops := some 0, seenBy := some ["A"] }

/-- A connected direct peer. -/
def exPeer : PeerInfo :=
  { nodeId := "p", state := .connected, type := .direct, publicKey := exKey,
    lastSeen := 10, latency := 0, bandwidth := 0, reliability := 1,
    supportedTypes := allMessageTypes }

/-- A node state with a single connected peer `p` (with its connection
handle and heartbeat timer). -/
def exNodeState : NodeState := ⟨[("p", exPeer)], ["p"], ["p"]⟩

/-- A connected `PeerManager` table entry. -/
def exPeerConn (id : String) (lastSeen : Int) : PeerConnection :=
  { nodeId := id, connectionId := "conn-" ++ id, connected := true,
    lastSeen := lastSeen }

/-- A peer manager at its cap (`maxPeers = 2`) whose least recently seen
peer is `b`. -/
def exPMState : PMState :=
  ⟨2, [("a", exPeerConn "a" 50), ("b", exPeerConn "b" 30)]⟩

/-- A previously unknown peer `c` being introduced to the manager. -/
def exNewPeerInfo : PMPeerInfo := ⟨"c", none, [], none⟩

/-- 16 bytes of sample entropy. -/
def exEntropy : List (Fin 256) := List.replicate 16 ⟨171, by decide⟩

/-! # Theorems -/

/-- C4 (code bug): `Whispurr.resonate(intent, strength)` does not forward
its `strength` argument — it calls `createMessage` with only
`{ intent, whisperTag }`, and `createMessage`'s RESONANCE arm hard-codes
`strength: 1.0`.  Hence the record built for an emission at strength 0.4
carries strength 1, not 0.4, and the default matcher
(`checkResonance`: dispatch iff strength > 0.5) dispatches it at the
receiver, while 0.4 itself would not have been dispatched.  This
contradicts the claim that the record carries the `strength` argument and
that an emission at 0.4 is not dispatched. -/
theorem resonate_strength_bug :
    (resonate exHash exTag "node" 1000 "nn" "mining:coord" (2/5)).strength = some 1 ∧
    ((2 : ℚ) / 5 ≠ 1) ∧
    checkResonance "mining:coord" 1 = true ∧
    checkResonance "mining:coord" (2/5) = false := by
  refine ⟨by decide, by norm_num, ?_, ?_⟩ <;> norm_num [checkResonance]

/-- C2 (code bug): extension handlers are NOT invoked at most once per
`(sender, nonce)` pair.  `setupMessageHandlers` registers per-type handlers
on the node that route straight to the extensions, bypassing the
`messageHistory` dedup of `handleIncomingMessage` (which only guards the
`message`-event path).  Delivering the same fresh `FILE_SYNC` record twice
to a node with one registered extension invokes its handler twice on the
first delivery (event path + type-handler path) and once more on the second
delivery (the event path drops it, the type-handler path does not): three
invocations in total instead of at most one. -/
theorem dedup_at_most_once_bug :
    (processDelivery "L" [exExt] 100 exOrchState exFileSync).2 = 2 ∧
    (processDelivery "L" [exExt] 200
        (processDelivery "L" [exExt] 100 exOrchState exFileSync).1 exFileSync).2 = 1 := by
  exact ⟨by decide, by decide⟩

/-- C6: `createMessage` populates the common fields with
`version = PROTOCOL_VERSION = "1.0.0"`, `ttl = options.ttl or 300000`
(JS `||`), `resonanceKey = deriveResonanceKey(options.intent or "default")`
and `whisperTag = options.whisperTag or
generateWhisperTag(options.intent or "default")`; and the BROADCAST arm
initializes `currentHops = 0` and `seenBy = [senderId]`. -/
theorem createMessage_defaults :
    PROTOCOL_VERSION = "1.0.0" ∧
    (∀ (H : String → List (Fin 256)) (G : String → String) (now : Int)
        (nonce : String) (type : MessageType) (senderId payload : String)
        (options : CreateOptions),
      (createMessage H G now nonce type senderId payload options).version = PROTOCOL_VERSION ∧
      (createMessage H G now nonce type senderId payload options).ttl =
        jsOrInt options.ttl 300000 ∧
      (createMessage H G now nonce type senderId payload options).resonanceKey =
        ⟨H (jsOrStr options.intent "default")⟩ ∧
      (createMessage H G now nonce type senderId payload options).whisperTag =
        jsOrStr options.whisperTag (G (jsOrStr options.intent "default"))) ∧
    (∀ (H : String → List (Fin 256)) (G : String → String) (now : Int)
        (nonce : String) (senderId payload : String) (options : CreateOptions),
      (createMessage H G now nonce .broadcast senderId payload options).currentHops = some 0 ∧
      (createMessage H G now nonce .broadcast senderId payload options).seenBy =
        some [senderId]) := by
  refine ⟨rfl, ?_, ?_⟩
  · intro H G now nonce type senderId payload options
    cases type <;> simp [createMessage]
  · intro H G now nonce senderId payload options
    simp [createMessage]

/-- C3: `handleGossipMessage` on an incoming broadcast record: if
`currentHops ≥ maxHops` or the local node id is already in `seenBy`,
the queue and the record are left untouched (nothing is enqueued, so
nothing is forwarded — `processGossipQueue` only sends queued records);
otherwise the local node id is appended to `seenBy`, `currentHops` is
incremented by one, and the updated record is enqueued on the gossip
queue. -/
theorem handleGossipMessage_spec (localId : String) (queue : List Message)
    (m : Message) (ch mh : Int) (sb : List String)
    (hch : m.currentHops = some ch) (hmh : m.maxHops = some mh)
    (hsb : m.seenBy = some sb) :
    ((ch ≥ mh ∨ localId ∈ sb) → handleGossipMessage localId queue m = (queue, m)) ∧
    (¬ ch ≥ mh → localId ∉ sb →
      handleGossipMessage localId queue m =
        (queue ++ [{ m with seenBy := some (sb ++ [localId]),
                            currentHops := some (ch + 1) }],
         { m with seenBy := some (sb ++ [localId]),
                  currentHops := some (ch + 1) })) := by
  unfold handleGossipMessage
  rw [hch, hmh, hsb]
  constructor
  · rintro (h | h)
    · simp [h]
    · by_cases h2 : ch ≥ mh <;> simp [h, h2]
  · intro h1 h2
    simp [h1, h2]

/-- Witness for C3: node `B` receives `A`'s fresh broadcast
(`currentHops = 0 < 10 = maxHops`, `B ∉ seenBy`): it appends itself,
increments the hop count and enqueues. -/
theorem handleGossipMessage_spec_witness :
    handleGossipMessage "B" [] exBroadcast =
      ([{ exBroadcast with seenBy := some ["A", "B"], currentHops := some 1 }],
       { exBroadcast with seenBy := some ["A", "B"], currentHops := some 1 }) := by
  have h := handleGossipMessage_spec "B" [] exBroadcast 0 10 ["A"] rfl rfl rfl
  exact h.2 (by decide) (by decide)

/-! ### Association-list (JS `Map`) helper lemmas -/

theorem find?_map_update {α : Type} (k : String) (v : α) (m : List (String × α))
    (h : m.any (fun p => p.1 = k) = true) :
    (m.map (fun p => if p.1 = k then (k, v) else p)).find?
      (fun p => p.1 = k) = some (k, v) := by
  induction m with
  | nil => simp at h
  | cons p rest ih =>
    by_cases hp : p.1 = k
    · simp [hp]
    · have h' : rest.any (fun q => q.1 = k) = true := by
        simp only [List.any_cons, Bool.or_eq_true, decide_eq_true_eq] at h
        simp only [List.any_eq_true, decide_eq_true_eq]
        rcases h with h | h
        · exact absurd h hp
        · simpa using h
      simp [hp, ih h']

theorem mapGet_mapSet_self {α : Type} (k : String) (v : α) (m : List (String × α)) :
    mapGet k (mapSet k v m) = some v := by
  unfold mapGet mapSet
  by_cases h : m.any (fun p => p.1 = k)
  · rw [if_pos h, find?_map_update k v m h]
    rfl
  · rw [if_neg h]
    have hnone : m.find? (fun p => decide (p.1 = k)) = none := by
      rw [List.find?_eq_none]
      intro p hp hk
      exact h (List.any_eq_true.mpr ⟨p, hp, hk⟩)
    rw [List.find?_append, hnone]
    simp

theorem find?_map_update_ne {α : Type} (k k' : String) (v : α)
    (m : List (String × α)) (hne : k ≠ k') :
    (m.map (fun p => if p.1 = k' then (k', v) else p)).find? (fun p => p.1 = k) =
      m.find? (fun p => p.1 = k) := by
  induction m with
  | nil => rfl
  | cons p rest ih =>
    by_cases hp : p.1 = k'
    · have hkk : ¬ (k' = k) := fun hk => hne hk.symm
      have hpk : ¬ (p.1 = k) := by rw [hp]; exact hkk
      rw [List.map_cons, if_pos hp,
          List.find?_cons_of_neg _ (by simpa using hkk),
          List.find?_cons_of_neg _ (by simpa using hpk)]
      exact ih
    · rw [List.map_cons, if_neg hp]
      by_cases hk : p.1 = k
      · rw [List.find?_cons_of_pos _ (by simpa using hk),
            List.find?_cons_of_pos _ (by simpa using hk)]
      · rw [List.find?_cons_of_neg _ (by simpa using hk),
            List.find?_cons_of_neg _ (by simpa using hk)]
        exact ih

theorem mapGet_mapSet_ne {α : Type} (k k' : String) (v : α) (m : List (String × α))
    (hne : k ≠ k') : mapGet k (mapSet k' v m) = mapGet k m := by
  unfold mapGet mapSet
  by_cases h : m.any (fun p => p.1 = k')
  · rw [if_pos h, find?_map_update_ne k k' v m hne]
  · rw [if_neg h, List.find?_append]
    have hkk : ¬ (k' = k) := fun hk => hne hk.symm
    have : List.find? (fun p => decide (p.1 = k)) [(k', v)] = none := by
      simp [hkk]
    rw [this]
    simp

theorem mapGet_mapDelete_self {α : Type} (k : String) (m : List (String × α)) :
    mapGet k (mapDelete k m) = none := by
  unfold mapGet mapDelete
  rw [Option.map_eq_none', List.find?_eq_none]
  intro p hp
  have := List.of_mem_filter hp
  simpa using this

theorem mapGet_eq_none_iff {α : Type} (k : String) (m : List (String × α)) :
    mapGet k m = none ↔ ∀ p ∈ m, p.1 ≠ k := by
  unfold mapGet
  rw [Option.map_eq_none', List.find?_eq_none]
  simp

/-! ### C5 : peer-record fate after a transport error -/

/-- C5 counterexample: node state with one connected peer `p`; after the
data-channel error path calls `handleDisconnection`, the `disconnected`
event has been emitted but `p`'s record is STILL in the peer table (with
state `DISCONNECTED`) — `handleDisconnection` writes the record back via
`this.peers.set` and only deletes the connection handle.  This refutes the
claim that the peer record is removed from the peer table. -/
theorem handleDisconnection_counterexample :
    mapGet "p" (handleDisconnection exNodeState "p" "Data channel error").1.peers =
      some { exPeer with state := ConnectionState.disconnected } ∧
    (handleDisconnection exNodeState "p" "Data channel error").2 =
      [ConnectionEvent.disconnected "p" "Data channel error"] := by
  exact ⟨by decide, by decide⟩

/-- C5 amended: after a mid-session transport error or disconnection of a
known peer, `handleDisconnection` marks the record `DISCONNECTED` and keeps
it in the peer table, removes the connection handle, stops the heartbeat,
and emits the `disconnected` event; the disconnected record no longer
appears among the connected peers (`getConnectedPeers`), but it is not
dropped from the table. -/
theorem handleDisconnection_amended (st : NodeState) (peerId reason : String)
    (peer : PeerInfo) (h : mapGet peerId st.peers = some peer) :
    mapGet peerId (handleDisconnection st peerId reason).1.peers =
      some { peer with state := ConnectionState.disconnected } ∧
    peerId ∉ (handleDisconnection st peerId reason).1.connections ∧
    peerId ∉ (handleDisconnection st peerId reason).1.heartbeatTimers ∧
    (handleDisconnection st peerId reason).2 =
      [ConnectionEvent.disconnected peerId reason] ∧
    { peer with state := ConnectionState.disconnected } ∉
      getConnectedPeers (handleDisconnection st peerId reason).1 := by
  refine ⟨?_, ?_, ?_, rfl, ?_⟩
  · simp only [handleDisconnection, h]
    exact mapGet_mapSet_self _ _ _
  · simp [handleDisconnection]
  · simp [handleDisconnection]
  · intro hmem
    have := List.of_mem_filter hmem
    simp at this

/-- Witness for C5 amended: the concrete single-peer node state. -/
theorem handleDisconnection_amended_witness :
    mapGet "p" (handleDisconnection exNodeState "p" "Data channel closed").1.peers =
      some { exPeer with state := ConnectionState.disconnected } ∧
    "p" ∉ (handleDisconnection exNodeState "p" "Data channel closed").1.connections ∧
    "p" ∉ (handleDisconnection exNodeState "p" "Data channel closed").1.heartbeatTimers ∧
    (handleDisconnection exNodeState "p" "Data channel closed").2 =
      [ConnectionEvent.disconnected "p" "Data channel closed"] ∧
    { exPeer with state := ConnectionState.disconnected } ∉
      getConnectedPeers (handleDisconnection exNodeState "p" "Data channel closed").1 :=
  handleDisconnection_amended exNodeState "p" "Data channel closed" exPeer (by decide)

/-! ### PeerManager helper lemmas -/

theorem any_of_mapGet_some {α : Type} {k : String} {v : α} {m : List (String × α)}
    (h : mapGet k m = some v) : m.any (fun p => p.1 = k) = true := by
  unfold mapGet at h
  cases hf : m.find? (fun p => decide (p.1 = k)) with
  | none => rw [hf] at h; cases h
  | some p =>
    have hp := List.find?_some hf
    have hm := List.mem_of_find?_eq_some hf
    exact List.any_eq_true.mpr ⟨p, hm, hp⟩

theorem length_mapDelete_lt {α : Type} (k : String) (m : List (String × α))
    (h : ∃ p ∈ m, p.1 = k) : (mapDelete k m).length < m.length := by
  induction m with
  | nil => simp at h
  | cons a rest ih =>
    by_cases ha : a.1 = k
    · have h1 : mapDelete k (a :: rest) = mapDelete k rest := by
        simp [mapDelete, List.filter_cons, ha]
      rw [h1]
      exact Nat.lt_succ_of_le (List.length_filter_le _ _)
    · have h1 : mapDelete k (a :: rest) = a :: mapDelete k rest := by
        simp [mapDelete, List.filter_cons, ha]
      rw [h1]
      rcases h with ⟨p, hp, hk⟩
      rcases List.mem_cons.mp hp with hpa | hm
      · exact absurd (hpa ▸ hk) ha
      · simpa using Nat.succ_lt_succ (ih ⟨p, hm, hk⟩)

theorem firstMinByLastSeen_eq_none_iff (l : List (String × PeerConnection)) :
    firstMinByLastSeen l = none ↔ l = [] := by
  cases l with
  | nil => simp [firstMinByLastSeen]
  | cons p rest =>
    cases h : firstMinByLastSeen rest with
    | none => simp [firstMinByLastSeen, h]
    | some q =>
      simp only [firstMinByLastSeen, h]
      split <;> simp

theorem firstMinByLastSeen_spec (l : List (String × PeerConnection))
    (p : String × PeerConnection) (h : firstMinByLastSeen l = some p) :
    p ∈ l ∧ ∀ q ∈ l, p.2.lastSeen ≤ q.2.lastSeen := by
  induction l generalizing p with
  | nil => cases h
  | cons a rest ih =>
    rw [firstMinByLastSeen] at h
    cases hr : firstMinByLastSeen rest with
    | none =>
      have hrest : rest = [] := (firstMinByLastSeen_eq_none_iff rest).mp hr
      subst hrest
      have h' : some a = some p := h
      cases h'
      exact ⟨List.mem_singleton.mpr rfl, by
        intro q hq
        rw [List.mem_singleton.mp hq]⟩
    | some q =>
      rw [hr] at h
      have h' : (if a.2.lastSeen ≤ q.2.lastSeen then some a else some q) = some p := h
      obtain ⟨hqmem, hqmin⟩ := ih q hr
      by_cases hle : a.2.lastSeen ≤ q.2.lastSeen
      · rw [if_pos hle] at h'
        cases h'
        refine ⟨List.mem_cons_self _ _, ?_⟩
        intro r hrmem
        rcases List.mem_cons.mp hrmem with hra | hm
        · rw [hra]
        · exact le_trans hle (hqmin r hm)
      · rw [if_neg hle] at h'
        cases h'
        refine ⟨List.mem_cons_of_mem _ hqmem, ?_⟩
        intro r hrmem
        rcases List.mem_cons.mp hrmem with hra | hm
        · rw [hra]; exact le_of_lt (lt_of_not_le hle)
        · exact hqmin r hm

/-! ### C9 : connection cap and eviction -/

/-- C9: the peer table never exceeds the configured `maxPeers` cap
(`maxPeers ≥ 1`, as the constructor's `options.maxPeers || 100`
guarantees): if the table is within the cap before `addPeer`, it is within
the cap afterwards; and when a previously unknown peer is added with the
table exactly at the cap, some already-known peer whose `lastSeen`
timestamp is minimal over the whole table is first disconnected
(`addPeer` returns its id as the evictee passed to `this.disconnect`) and
removed from the table. -/
theorem addPeer_cap_invariant (st : PMState) (info : PMPeerInfo) (ht : Bool)
    (now : Int) (cid : String)
    (hmax : 1 ≤ st.maxPeers) (hlen : st.peers.length ≤ st.maxPeers) :
    (addPeer st info ht now cid).1.peers.length ≤ st.maxPeers ∧
    (st.peers.length = st.maxPeers → mapGet info.nodeId st.peers = none →
      ∃ old ∈ st.peers,
        (addPeer st info ht now cid).2 = some old.1 ∧
        (∀ q ∈ st.peers, old.2.lastSeen ≤ q.2.lastSeen) ∧
        mapGet old.1 (addPeer st info ht now cid).1.peers = none) := by
  cases hget : mapGet info.nodeId st.peers with
  | some v =>
    constructor
    · have hany := any_of_mapGet_some hget
      simp only [addPeer, hget, mapSet, hany, if_true, List.length_map]
      exact hlen
    · intro _ hnone
      simp at hnone
  | none =>
    have hkeys : ∀ p ∈ st.peers, p.1 ≠ info.nodeId := (mapGet_eq_none_iff _ _).mp hget
    by_cases hc : st.peers.length ≥ st.maxPeers
    · have heq : st.peers.length = st.maxPeers := le_antisymm hlen hc
      have hne : st.peers ≠ [] := by
        intro hnil
        rw [hnil] at heq
        simp at heq
        omega
      cases hfm : firstMinByLastSeen st.peers with
      | none => exact absurd ((firstMinByLastSeen_eq_none_iff _).mp hfm) hne
      | some old =>
        obtain ⟨hmem, hmin⟩ := firstMinByLastSeen_spec _ _ hfm
        have holdne : old.1 ≠ info.nodeId := hkeys old hmem
        have hlen1 : (mapDelete old.1 st.peers).length < st.peers.length :=
          length_mapDelete_lt _ _ ⟨old, hmem, rfl⟩
        have hany1 : (mapDelete old.1 st.peers).any (fun p => p.1 = info.nodeId) = false := by
          rw [List.any_eq_false]
          intro p hp
          have hpmem : p ∈ st.peers := List.mem_of_mem_filter hp
          simpa using hkeys p hpmem
        constructor
        · simp only [addPeer, hget, if_pos hc, hfm, mapSet, hany1,
            Bool.false_eq_true, if_false, List.length_append, List.length_cons,
            List.length_nil]
          omega
        · intro _ _
          refine ⟨old, hmem, ?_, hmin, ?_⟩
          · simp [addPeer, hget, if_pos hc, hfm]
          · simp only [addPeer, hget, if_pos hc, hfm]
            rw [mapGet_mapSet_ne _ _ _ _ holdne]
            exact mapGet_mapDelete_self _ _
    · have hlt : st.peers.length < st.maxPeers := lt_of_not_ge hc
      have hany : st.peers.any (fun p => p.1 = info.nodeId) = false := by
        rw [List.any_eq_false]
        intro p hp
        simpa using hkeys p hp
      constructor
      · simp only [addPeer, hget, if_neg hc, mapSet, hany, Bool.false_eq_true,
          if_false, List.length_append, List.length_cons, List.length_nil]
        omega
      · intro heq _
        omega

/-- Witness for C9: the manager at its cap of 2 evicts `b` (the least
recently seen peer) when the unknown peer `c` is added. -/
theorem addPeer_cap_invariant_witness :
    (addPeer exPMState exNewPeerInfo true 100 "conn-c").1.peers.length ≤
      exPMState.maxPeers ∧
    (exPMState.peers.length = exPMState.maxPeers →
      mapGet exNewPeerInfo.nodeId exPMState.peers = none →
      ∃ old ∈ exPMState.peers,
        (addPeer exPMState exNewPeerInfo true 100 "conn-c").2 = some old.1 ∧
        (∀ q ∈ exPMState.peers, old.2.lastSeen ≤ q.2.lastSeen) ∧
        mapGet old.1 (addPeer exPMState exNewPeerInfo true 100 "conn-c").1.peers =
          none) :=
  addPeer_cap_invariant exPMState exNewPeerInfo true 100 "conn-c"
    (by decide) (by decide)

/-! ### C10 : JS-truthiness presence checks reject empty payloads,
zero TTLs and zero timestamps -/

theorem validateMessage_errors_eq (now : Int) (m : Message) :
    (validateMessage now m).errors = validateErrors now m := by
  simp only [validateMessage]

theorem validateMessage_isValid_eq (now : Int) (m : Message) :
    (validateMessage now m).isValid = (validateErrors now m).isEmpty := by
  simp only [validateMessage]

theorem isValid_false_of_mem_errors (now : Int) (m : Message) (e : String)
    (hmem : e ∈ validateErrors now m) : (validateMessage now m).isValid = false := by
  rw [validateMessage_isValid_eq, List.isEmpty_eq_false]
  exact List.ne_nil_of_mem hmem

theorem mem_errors_of_empty_payload (now : Int) (m : Message)
    (h : m.payload = "") : "Missing payload" ∈ validateErrors now m := by
  simp [validateErrors, h]

theorem mem_errors_of_zero_ttl (now : Int) (m : Message)
    (h : m.ttl = 0) : "Missing TTL" ∈ validateErrors now m := by
  simp [validateErrors, h]

theorem mem_errors_of_zero_timestamp (now : Int) (m : Message)
    (h : m.timestamp = 0) : "Missing timestamp" ∈ validateErrors now m := by
  simp [validateErrors, h]

theorem createMessage_payload (H : String → List (Fin 256)) (G : String → String)
    (now : Int) (nonce : String) (type : MessageType) (senderId payload : String)
    (options : CreateOptions) :
    (createMessage H G now nonce type senderId payload options).payload = payload := by
  cases type <;> rfl

/-! ### C1 : serialization round trip and validation -/

theorem map_val_mod_id (l : List (Fin 256)) :
    (l.map Fin.val).map
      (fun n => (⟨n % 256, Nat.mod_lt n (by decide)⟩ : Fin 256)) = l := by
  induction l with
  | nil => rfl
  | cons b rest ih =>
    simp only [List.map_cons, ih]
    congr 1
    exact Fin.ext (Nat.mod_eq_of_lt b.isLt)

/-- The JSON round trip restores the message structurally, with
`resonanceKey` rebuilt as a byte array. -/
theorem deserialize_serialize (m : Message) :
    deserializeMessage (serializeMessage m) = m := by
  cases m with
  | mk type senderId resonanceKey whisperTag payload timestamp version ttl
      nonce targetId maxHops currentHops seenBy intent strength fileId
      chunkIndex totalChunks metadata signalType signalData burstId burstData =>
    cases resonanceKey with
    | mk data =>
      simp only [serializeMessage, deserializeMessage, map_val_mod_id]

/-- Under JS-truthy field presence and freshness, `validateMessage`
accumulates no error. -/
theorem validateErrors_eq_nil (now : Int) (m : Message)
    (hsender : m.senderId ≠ "") (htag : m.whisperTag ≠ "") (hpay : m.payload ≠ "")
    (hts : m.timestamp ≠ 0) (hver : m.version ≠ "") (httl : 0 < m.ttl)
    (hnonce : m.nonce ≠ "") (hfresh : now - m.timestamp ≤ m.ttl)
    (hw : m.type = .whisper → truthyOptStr m.targetId = true)
    (hb : m.type = .broadcast →
      (∃ k, m.maxHops = some k ∧ 0 ≤ k) ∧ (∃ k, m.currentHops = some k ∧ 0 ≤ k) ∧
      (∃ sb, m.seenBy = some sb))
    (hr : m.type = .resonance →
      truthyOptStr m.intent = true ∧ (∃ s, m.strength = some s ∧ 0 ≤ s ∧ s ≤ 1)) :
    validateErrors now m = [] := by
  have httl0 : m.ttl ≠ 0 := by omega
  have httl1 : ¬ m.ttl < 0 := by omega
  have hexp : ¬ now - m.timestamp > m.ttl := by omega
  have htype : ¬ messageTypeStr m.type = "" := by
    cases m.type <;> simp [messageTypeStr]
  have hmem : m.type ∈ allMessageTypes := by
    cases m.type <;> simp [allMessageTypes]
  unfold validateErrors
  rw [if_neg htype, if_neg hsender, if_neg htag, if_neg hpay, if_neg hts,
      if_neg hver, if_neg httl0, if_neg hnonce,
      if_neg (fun hc => hc.2 hmem),
      if_neg (fun hc : _ ∧ _ => httl1 hc.2),
      if_neg (fun hc : _ ∧ _ ∧ _ => hexp hc.2.2),
      if_neg (fun hc : _ ∧ _ => by
        have := hw hc.1
        rw [this] at hc
        cases hc.2)]
  by_cases hbc : m.type = MessageType.broadcast
  · rw [if_pos hbc]
    obtain ⟨⟨k, hk, hk0⟩, ⟨j, hj, hj0⟩, ⟨sb, hsb⟩⟩ := hb hbc
    have hrc : m.type ≠ MessageType.resonance := by rw [hbc]; intro hcc; cases hcc
    rw [if_neg hrc, hk, hj, hsb]
    have hk1 : ¬ k < 0 := by omega
    have hj1 : ¬ j < 0 := by omega
    simp [hk1, hj1]
  · rw [if_neg hbc]
    by_cases hrc : m.type = MessageType.resonance
    · rw [if_pos hrc]
      obtain ⟨hint, s, hs, hs0, hs1⟩ := hr hrc
      rw [hint, hs]
      have hsno : ¬ (s < 0 ∨ s > 1) := by
        rintro (hc | hc)
        · exact absurd hs0 (not_le.mpr hc)
        · exact absurd hs1 (not_le.mpr hc)
      simp [hsno]
    · rw [if_neg hrc]
      simp

/-- C1 counterexample: a `PONG` record with every field of the data model
present and a fresh timestamp (`now - timestamp = 0 ≤ ttl`) still fails
`validateMessage` after the serialization round trip, because its payload —
present but empty, exactly as the source constructs every ping/pong — fails
the JS truthiness presence check.  So
`validate(deserialize(serialize(m)))` is NOT valid for every well-formed
fresh message. -/
theorem serialize_roundtrip_validate_counterexample :
    (1000 : Int) - exPong.timestamp ≤ exPong.ttl ∧
    (validateMessage 1000 (deserializeMessage (serializeMessage exPong))).isValid
      = false := by
  exact ⟨by decide, by decide⟩

/-- C1 amended: for a message whose fields are present AND JS-truthy
(non-empty strings, non-zero `timestamp`, positive `ttl`; kind-specific
fields present with their documented ranges) and fresh enough
(`now - timestamp ≤ ttl`), serialization followed by deserialization yields
a structurally equal record (with `resonanceKey` restored as a byte array)
and `validateMessage` reports it valid. -/
theorem serialize_roundtrip_validate_amended (now : Int) (m : Message)
    (hsender : m.senderId ≠ "") (htag : m.whisperTag ≠ "") (hpay : m.payload ≠ "")
    (hts : m.timestamp ≠ 0) (hver : m.version ≠ "") (httl : 0 < m.ttl)
    (hnonce : m.nonce ≠ "") (hfresh : now - m.timestamp ≤ m.ttl)
    (hw : m.type = .whisper → truthyOptStr m.targetId = true)
    (hb : m.type = .broadcast →
      (∃ k, m.maxHops = some k ∧ 0 ≤ k) ∧ (∃ k, m.currentHops = some k ∧ 0 ≤ k) ∧
      (∃ sb, m.seenBy = some sb))
    (hr : m.type = .resonance →
      truthyOptStr m.intent = true ∧ (∃ s, m.strength = some s ∧ 0 ≤ s ∧ s ≤ 1)) :
    deserializeMessage (serializeMessage m) = m ∧
    (validateMessage now (deserializeMessage (serializeMessage m))).isValid = true := by
  refine ⟨deserialize_serialize m, ?_⟩
  rw [deserialize_serialize m, validateMessage_isValid_eq,
      validateErrors_eq_nil now m hsender htag hpay hts hver httl hnonce hfresh hw hb hr]
  rfl

/-- Witness for C1 amended: the concrete truthy whisper record survives the
round trip and validates. -/
theorem serialize_roundtrip_validate_witness :
    deserializeMessage (serializeMessage exWhisper) = exWhisper ∧
    (validateMessage 1000 (deserializeMessage (serializeMessage exWhisper))).isValid
      = true :=
  serialize_roundtrip_validate_amended 1000 exWhisper (by decide) (by decide)
    (by decide) (by decide) (by decide) (by decide) (by decide) (by decide)
    (fun _ => by decide)
    (fun h => absurd h (by decide))
    (fun h => absurd h (by decide))

/-! ### Hex rendering / parsing lemmas (for C7 and C8) -/

theorem isHexLower_hexDigit (d : Nat) (h : d < 16) :
    isHexLower (hexDigit d) = true := by
  interval_cases d <;> decide

theorem hexVal_hexDigit (d : Nat) (h : d < 16) : hexVal (hexDigit d) = d := by
  interval_cases d <;> decide

theorem not_mem_colon_of_all_hex (l : List Char)
    (h : l.all isHexLower = true) : ':' ∉ l := by
  intro hm
  have hc := List.all_eq_true.mp h _ hm
  exact absurd hc (by decide)

theorem natToHexAux_all : ∀ (n : Nat) (acc : List Char),
    acc.all isHexLower = true → (natToHexAux n acc).all isHexLower = true := by
  intro n
  induction n using Nat.strong_induction_on with
  | _ n ih =>
    intro acc hacc
    cases n with
    | zero => simpa [natToHexAux] using hacc
    | succ k =>
      simp only [natToHexAux]
      exact ih ((k + 1) / 16) (Nat.div_lt_self (Nat.succ_pos k) (by omega)) _
        (by simp [hacc, isHexLower_hexDigit _ (Nat.mod_lt _ (by omega))])

theorem natToHexAux_ne_nil : ∀ (n : Nat) (acc : List Char),
    (0 < n ∨ acc ≠ []) → natToHexAux n acc ≠ [] := by
  intro n
  induction n using Nat.strong_induction_on with
  | _ n ih =>
    intro acc hd
    cases n with
    | zero =>
      rcases hd with h | h
      · omega
      · simpa [natToHexAux] using h
    | succ k =>
      simp only [natToHexAux]
      exact ih ((k + 1) / 16) (Nat.div_lt_self (Nat.succ_pos k) (by omega)) _
        (Or.inr (by simp))

theorem natToHex_all (n : Nat) : (natToHex n).all isHexLower = true := by
  unfold natToHex
  by_cases h : n = 0
  · rw [if_pos h]; decide
  · rw [if_neg h]; exact natToHexAux_all n [] rfl

theorem natToHex_ne_nil (n : Nat) : natToHex n ≠ [] := by
  unfold natToHex
  by_cases h : n = 0
  · rw [if_pos h]; simp
  · rw [if_neg h]
    exact natToHexAux_ne_nil n [] (Or.inl (Nat.pos_of_ne_zero h))

theorem foldl_natToHexAux : ∀ (n : Nat) (acc : List Char) (a : Nat),
    List.foldl (fun x c => x * 16 + hexVal c) a (natToHexAux n acc) =
    List.foldl (fun x c => x * 16 + hexVal c) (prepVal n a) acc := by
  intro n
  induction n using Nat.strong_induction_on with
  | _ n ih =>
    intro acc a
    cases n with
    | zero => simp [natToHexAux, prepVal]
    | succ k =>
      simp only [natToHexAux]
      rw [ih ((k + 1) / 16) (Nat.div_lt_self (Nat.succ_pos k) (by omega)) _ a]
      simp only [List.foldl_cons]
      rw [hexVal_hexDigit _ (Nat.mod_lt _ (by omega))]
      conv_rhs => rw [prepVal]

theorem prepVal_zero : ∀ n : Nat, prepVal n 0 = n := by
  intro n
  induction n using Nat.strong_induction_on with
  | _ n ih =>
    cases n with
    | zero => simp [prepVal]
    | succ k =>
      rw [prepVal, ih ((k + 1) / 16) (Nat.div_lt_self (Nat.succ_pos k) (by omega))]
      have := Nat.div_add_mod (k + 1) 16
      omega

/-- JS round trip: `parseInt(n.toString(16), 16) = n`. -/
theorem hexToNat_natToHex (n : Nat) : hexToNat (natToHex n) = n := by
  unfold natToHex hexToNat
  by_cases h : n = 0
  · rw [if_pos h, h]; decide
  · rw [if_neg h, foldl_natToHexAux n [] 0]
    simp only [List.foldl_nil]
    exact prepVal_zero n

theorem length_flatMap_byteToHex (l : List (Fin 256)) :
    (l.flatMap byteToHex).length = 2 * l.length := by
  induction l with
  | nil => rfl
  | cons b rest ih =>
    simp only [List.flatMap_cons, List.length_append, ih, byteToHex,
      List.length_cons, List.length_nil]
    omega

theorem all_flatMap_byteToHex (l : List (Fin 256)) :
    (l.flatMap byteToHex).all isHexLower = true := by
  induction l with
  | nil => rfl
  | cons b rest ih =>
    have h1 : b.val / 16 < 16 :=
      (Nat.div_lt_iff_lt_mul (by omega)).mpr (by have := b.isLt; omega)
    have h2 : b.val % 16 < 16 := Nat.mod_lt _ (by omega)
    simp [List.flatMap_cons, List.all_append, ih, byteToHex,
      isHexLower_hexDigit _ h1, isHexLower_hexDigit _ h2]

/-! ### `split(':')` characterization (for C7 and C8) -/

theorem splitColon_ne_nil (s : List Char) : splitColon s ≠ [] := by
  induction s with
  | nil => simp [splitColon]
  | cons c rest ih =>
    by_cases hc : c = ':'
    · simp [splitColon, hc]
    · simp only [splitColon, if_neg hc]
      cases h : splitColon rest <;> simp

theorem splitColon_singleton_iff (s : List Char) : ∀ b : List Char,
    splitColon s = [b] ↔ s = b ∧ ':' ∉ b := by
  induction s with
  | nil =>
    intro b
    constructor
    · intro h
      injection h with h1 _
      subst h1
      exact ⟨rfl, by simp⟩
    · rintro ⟨h, _⟩
      subst h
      rfl
  | cons c rest ih =>
    intro b
    by_cases hc : c = ':'
    · subst hc
      simp only [splitColon, if_pos rfl]
      constructor
      · intro h
        injection h with _ h2
        exact absurd h2 (splitColon_ne_nil rest)
      · rintro ⟨h, hni⟩
        exact absurd (h ▸ List.mem_cons_self ':' rest) hni
    · simp only [splitColon, if_neg hc]
      cases hsp : splitColon rest with
      | nil => exact absurd hsp (splitColon_ne_nil rest)
      | cons h t =>
        constructor
        · intro heq
          injection heq with e1 e2
          subst e2
          obtain ⟨hr, hni⟩ := (ih h).mp hsp
          subst hr
          refine ⟨by rw [e1], ?_⟩
          rw [← e1]
          intro hm
          rcases List.mem_cons.mp hm with e | hm2
          · exact hc e.symm
          · exact hni hm2
        · rintro ⟨heq, hni⟩
          have hnr : ':' ∉ rest := fun hm =>
            hni (heq ▸ List.mem_cons_of_mem c hm)
          have hone : splitColon rest = [rest] := (ih rest).mpr ⟨rfl, hnr⟩
          rw [hsp] at hone
          injection hone with f1 f2
          subst f1
          subst f2
          rw [← heq]

theorem splitColon_pair_iff (s : List Char) : ∀ a b : List Char,
    splitColon s = [a, b] ↔ s = a ++ ':' :: b ∧ ':' ∉ a ∧ ':' ∉ b := by
  induction s with
  | nil =>
    intro a b
    constructor
    · intro h
      injection h with _ h2
      cases h2
    · rintro ⟨h, _, _⟩
      cases a <;> cases h
  | cons c rest ih =>
    intro a b
    by_cases hc : c = ':'
    · subst hc
      simp only [splitColon, if_pos rfl]
      constructor
      · intro h
        injection h with h1 h2
        obtain ⟨hr, hnb⟩ := (splitColon_singleton_iff rest b).mp h2
        subst h1
        exact ⟨by simp [hr], by simp, hnb⟩
      · rintro ⟨heq, hna, hnb⟩
        cases a with
        | nil =>
          injection heq with _ e2
          rw [(splitColon_singleton_iff rest b).mpr ⟨e2, hnb⟩]
          simp
        | cons x xs =>
          injection heq with e1 _
          exact absurd (by rw [← e1]; exact List.mem_cons_self _ _ : ':' ∈ x :: xs) hna
    · simp only [splitColon, if_neg hc]
      cases hsp : splitColon rest with
      | nil => exact absurd hsp (splitColon_ne_nil rest)
      | cons h t =>
        constructor
        · intro heq
          injection heq with e1 e2
          have hpair : splitColon rest = [h, b] := by rw [hsp, e2]
          obtain ⟨hr, hnh, hnb⟩ := (ih h b).mp hpair
          subst e1
          refine ⟨?_, ?_, hnb⟩
          · simp [hr]
          · intro hm
            rcases List.mem_cons.mp hm with e | hm2
            · exact hc e.symm
            · exact hnh hm2
        · rintro ⟨heq, hna, hnb⟩
          cases a with
          | nil =>
            injection heq with e1 _
            exact absurd e1 hc
          | cons x xs =>
            injection heq with e1 e2
            have hnxs : ':' ∉ xs := fun hm => hna (List.mem_cons_of_mem x hm)
            have hpr : splitColon rest = [xs, b] := (ih xs b).mpr ⟨e2, hnxs, hnb⟩
            rw [hsp] at hpr
            injection hpr with f1 f2
            subst f1
            subst f2
            rw [e1]

/-! ### C8 : node-id validation characterizes the documented format -/

/-- C8: for every string `s`, `validateNodeId s` returns true iff `s`
matches `^[0-9a-f]{32}:[0-9a-f]+$`: `s` decomposes as a 32-character
lowercase-hex entropy prefix, one colon, and a non-empty lowercase-hex
timestamp suffix (since `:` is not a hex character, the decomposition also
forces exactly one colon in `s`). -/
theorem validateNodeId_iff (s : List Char) :
    validateNodeId s = true ↔
    ∃ e t, s = e ++ ':' :: t ∧ e.length = 32 ∧ e.all isHexLower = true ∧
      t ≠ [] ∧ t.all isHexLower = true := by
  unfold validateNodeId
  constructor
  · intro h
    cases hsp : splitColon s with
    | nil => exact absurd hsp (splitColon_ne_nil s)
    | cons p1 rest =>
      cases rest with
      | nil => rw [hsp] at h; cases h
      | cons p2 rest2 =>
        cases rest2 with
        | cons q qs => rw [hsp] at h; cases h
        | nil =>
          rw [hsp] at h
          replace h : (if ¬ (p1.length = 32 ∧ p1.all isHexLower = true) then false
              else if ¬ (p2 ≠ [] ∧ p2.all isHexLower = true) then false
              else true) = true := h
          by_cases h1 : p1.length = 32 ∧ p1.all isHexLower = true
          · by_cases h2 : p2 ≠ [] ∧ p2.all isHexLower = true
            · obtain ⟨hdec, _, _⟩ := (splitColon_pair_iff s p1 p2).mp hsp
              exact ⟨p1, p2, hdec, h1.1, h1.2, h2.1, h2.2⟩
            · rw [if_neg (fun hc => hc h1), if_pos h2] at h
              cases h
          · rw [if_pos h1] at h
            cases h
  · rintro ⟨e, t, heq, hlen, hhex, htne, hthex⟩
    have hne : ':' ∉ e := not_mem_colon_of_all_hex e hhex
    have hnt : ':' ∉ t := not_mem_colon_of_all_hex t hthex
    have hsp : splitColon s = [e, t] := (splitColon_pair_iff s e t).mpr ⟨heq, hne, hnt⟩
    rw [hsp]
    show (if ¬ (e.length = 32 ∧ e.all isHexLower = true) then false
        else if ¬ (t ≠ [] ∧ t.all isHexLower = true) then false
        else true) = true
    rw [if_neg (fun hc => hc ⟨hlen, hhex⟩), if_neg (fun hc => hc ⟨htne, hthex⟩)]

/-- Witness for C8: a concrete id with 32 hex digits, a colon and a
non-empty hex suffix validates. -/
theorem validateNodeId_iff_witness :
    validateNodeId ("aaaaaaaaaaaaaaaaaaaaaaaaaaaaaaaa:1f".toList) = true :=
  (validateNodeId_iff _).mpr
    ⟨"aaaaaaaaaaaaaaaaaaaaaaaaaaaaaaaa".toList, "1f".toList,
      by decide, by decide, by decide, by decide, by decide⟩

/-! ### C7 : generated node ids validate and round-trip their timestamp -/

/-- C7: for any 16 entropy bytes and any non-negative wall-clock
millisecond value `t`, the node id produced by `generateEphemeralNodeId`
passes `validateNodeId`, and `extractTimestamp` recovers exactly `t`. -/
theorem generateEphemeralNodeId_valid (entropy : List (Fin 256)) (t : Nat)
    (hlen : entropy.length = 16) :
    validateNodeId (generateEphemeralNodeId entropy t) = true ∧
    extractTimestamp (generateEphemeralNodeId entropy t) = some t := by
  have hehex : (entropy.flatMap byteToHex).all isHexLower = true :=
    all_flatMap_byteToHex entropy
  have helen : (entropy.flatMap byteToHex).length = 32 := by
    rw [length_flatMap_byteToHex, hlen]
  have hthex : (natToHex t).all isHexLower = true := natToHex_all t
  have htne : natToHex t ≠ [] := natToHex_ne_nil t
  have hsp : splitColon (generateEphemeralNodeId entropy t) =
      [entropy.flatMap byteToHex, natToHex t] :=
    (splitColon_pair_iff _ _ _).mpr
      ⟨rfl, not_mem_colon_of_all_hex _ hehex, not_mem_colon_of_all_hex _ hthex⟩
  have hv : validateNodeId (generateEphemeralNodeId entropy t) = true := by
    unfold validateNodeId
    rw [hsp]
    show (if ¬ ((entropy.flatMap byteToHex).length = 32 ∧
            (entropy.flatMap byteToHex).all isHexLower = true) then false
        else if ¬ (natToHex t ≠ [] ∧ (natToHex t).all isHexLower = true) then false
        else true) = true
    rw [if_neg (fun hc => hc ⟨helen, hehex⟩),
        if_neg (fun hc => hc ⟨htne, hthex⟩)]
  refine ⟨hv, ?_⟩
  unfold extractTimestamp
  rw [if_neg (fun hc => hc hv), hsp]
  show some (hexToNat (natToHex t)) = some t
  rw [hexToNat_natToHex]

/-- Witness for C7: 16 concrete entropy bytes and timestamp `0`. -/
theorem generateEphemeralNodeId_valid_witness :
    validateNodeId (generateEphemeralNodeId exEntropy 0) = true ∧
    extractTimestamp (generateEphemeralNodeId exEntropy 0) = some 0 :=
  generateEphemeralNodeId_valid exEntropy 0 (by decide)

/-- C10 counterexample: heartbeat pings do NOT fail validation at
receivers.  The heartbeat `PING` is constructed with an empty payload, but
`sendMessage` replaces the payload with its encryption — a never-empty
base64 string — before serializing onto the wire, and the receivers'
validation gates (`setupDataChannel.onmessage`, `handleRelayMessage`)
validate that delivered record: a fresh delivered heartbeat ping passes
validation (`isValid = true`), refuting the claim that every heartbeat
`PING`/`PONG` fails validation at any receiver that validates before
dispatch. -/
theorem heartbeat_validation_counterexample :
    (createMessage exHash exTag 1000 "nn" .ping "sender-1" ""
      { ttl := some 10000 }).payload = "" ∧
    (validateMessage 1000 (deserializeMessage (serializeMessage
      (sendMessagePayload exEncrypt
        (createMessage exHash exTag 1000 "nn" .ping "sender-1" ""
          { ttl := some 10000 }))))).isValid = true := by
  exact ⟨by decide, by decide⟩

/-- C10 amended: `validateMessage`'s required-field checks use JS
truthiness, so a message whose `payload` is the empty string, whose `ttl`
is `0` or whose `timestamp` is `0` is rejected (`isValid = false`) with the
corresponding missing-field error; in particular every heartbeat `PING` and
every `PONG` — both constructed with an empty payload — fails validation
*as constructed*, i.e. when validated before the send path runs.  At
receivers, however, this never bites: `sendMessage` replaces the payload
with its encryption (any never-empty `encrypt`) before serialization, so a
fresh delivered heartbeat ping or pong (truthy sender id, whisper tag and
nonce, non-zero send time, received within its 10 s TTL) passes the
receivers' validate-before-dispatch gate. -/
theorem validateMessage_falsy_fields_amended :
    (∀ (now : Int) (m : Message), m.payload = "" →
      (validateMessage now m).isValid = false ∧
      "Missing payload" ∈ (validateMessage now m).errors) ∧
    (∀ (now : Int) (m : Message), m.ttl = 0 →
      (validateMessage now m).isValid = false ∧
      "Missing TTL" ∈ (validateMessage now m).errors) ∧
    (∀ (now : Int) (m : Message), m.timestamp = 0 →
      (validateMessage now m).isValid = false ∧
      "Missing timestamp" ∈ (validateMessage now m).errors) ∧
    (∀ (H : String → List (Fin 256)) (G : String → String) (now : Int)
        (nonce sender : String) (now2 : Int),
      (validateMessage now2
        (createMessage H G now nonce .ping sender "" { ttl := some 10000 })).isValid
          = false ∧
      (validateMessage now2
        (createMessage H G now nonce .pong sender "" { ttl := some 10000 })).isValid
          = false) ∧
    (∀ (H : String → List (Fin 256)) (G : String → String) (now : Int)
        (nonce sender : String) (encrypt : String → String) (now2 : Int),
      sender ≠ "" → G "default" ≠ "" → nonce ≠ "" → now ≠ 0 →
      encrypt "" ≠ "" → now2 - now ≤ 10000 →
      (validateMessage now2 (deserializeMessage (serializeMessage
        (sendMessagePayload encrypt
          (createMessage H G now nonce .ping sender "" { ttl := some 10000 }))))).isValid
        = true ∧
      (validateMessage now2 (deserializeMessage (serializeMessage
        (sendMessagePayload encrypt
          (createMessage H G now nonce .pong sender "" { ttl := some 10000 }))))).isValid
        = true) := by
  refine ⟨?_, ?_, ?_, ?_, ?_⟩
  · intro now m h
    have hmem := mem_errors_of_empty_payload now m h
    exact ⟨isValid_false_of_mem_errors now m _ hmem,
      (validateMessage_errors_eq now m) ▸ hmem⟩
  · intro now m h
    have hmem := mem_errors_of_zero_ttl now m h
    exact ⟨isValid_false_of_mem_errors now m _ hmem,
      (validateMessage_errors_eq now m) ▸ hmem⟩
  · intro now m h
    have hmem := mem_errors_of_zero_timestamp now m h
    exact ⟨isValid_false_of_mem_errors now m _ hmem,
      (validateMessage_errors_eq now m) ▸ hmem⟩
  · intro H G now nonce sender now2
    constructor
    · exact isValid_false_of_mem_errors now2 _ _
        (mem_errors_of_empty_payload now2 _ (createMessage_payload H G now nonce _ sender "" _))
    · exact isValid_false_of_mem_errors now2 _ _
        (mem_errors_of_empty_payload now2 _ (createMessage_payload H G now nonce _ sender "" _))
  · intro H G now nonce sender encrypt now2 hs hg hn hnow he hfresh
    constructor
    · rw [deserialize_serialize, validateMessage_isValid_eq,
          validateErrors_eq_nil now2
            (sendMessagePayload encrypt
              (createMessage H G now nonce .ping sender "" { ttl := some 10000 }))
            hs hg he hnow
            (by decide : ("1.0.0" : String) ≠ "")
            (by decide : (0 : Int) < 10000)
            hn hfresh
            (fun h => absurd h (by decide : MessageType.ping ≠ MessageType.whisper))
            (fun h => absurd h (by decide : MessageType.ping ≠ MessageType.broadcast))
            (fun h => absurd h (by decide : MessageType.ping ≠ MessageType.resonance))]
      rfl
    · rw [deserialize_serialize, validateMessage_isValid_eq,
          validateErrors_eq_nil now2
            (sendMessagePayload encrypt
              (createMessage H G now nonce .pong sender "" { ttl := some 10000 }))
            hs hg he hnow
            (by decide : ("1.0.0" : String) ≠ "")
            (by decide : (0 : Int) < 10000)
            hn hfresh
            (fun h => absurd h (by decide : MessageType.pong ≠ MessageType.whisper))
            (fun h => absurd h (by decide : MessageType.pong ≠ MessageType.broadcast))
            (fun h => absurd h (by decide : MessageType.pong ≠ MessageType.resonance))]
      rfl

/-- Witness for C10 amended: the concrete `PONG` record (all fields
present, empty payload) is rejected with a missing-payload error, a
concretely constructed heartbeat ping fails validation before the send
path, and the same ping as delivered (payload encrypted by `sendMessage`)
passes validation at the receiver. -/
theorem validateMessage_falsy_fields_amended_witness :
    ((validateMessage 1000 exPong).isValid = false ∧
      "Missing payload" ∈ (validateMessage 1000 exPong).errors) ∧
    (validateMessage 1000
      (createMessage exHash exTag 1000 "nn" .ping "sender-1" ""
        { ttl := some 10000 })).isValid = false ∧
    (validateMessage 1000 (deserializeMessage (serializeMessage
      (sendMessagePayload exEncrypt
        (createMessage exHash exTag 1000 "nn" .ping "sender-1" ""
          { ttl := some 10000 }))))).isValid = true :=
  ⟨validateMessage_falsy_fields_amended.1 1000 exPong rfl,
   (validateMessage_falsy_fields_amended.2.2.2.1 exHash exTag 1000 "nn" "sender-1" 1000).1,
   (validateMessage_falsy_fields_amended.2.2.2.2 exHash exTag 1000 "nn" "sender-1"
      exEncrypt 1000 (by decide) (by decide) (by decide) (by decide) (by decide)
      (by decide)).1⟩

end WhispurrNet
